import Mathlib

/-!
Verification of the OTP core (`src/core.ts`): HOTP/TOTP generation and
verification and the secret-generation bundle.  The hash/HMAC primitives,
the counter codec, dynamic truncation and the time-to-counter derivation
live in the repository's `internals` module, which is not part of the
provided sources; they are modelled from the specification (§4.1–§4.3,
§4.6), with the standard FIPS 180 hash functions written out in full so
that every definition is executable and checkable against the RFC 4226 /
RFC 6238 test vectors.
-/

set_option maxRecDepth 100000

namespace OtpUtils

/-! ## Bytes and 32/64-bit words -/

/-- Interpret a byte list as a big-endian number. -/
def word32 (l : List Nat) : Nat := l.foldl (fun a b => a * 256 + b) 0

/-- `k` big-endian bytes of `n` (most significant first). -/
def toBytesBE : Nat → Nat → List Nat
  | 0, _ => []
  | k + 1, n => (n / 2 ^ (8 * k)) % 256 :: toBytesBE k n

/-- Rotate a 32-bit word left by `n`. -/
def rotl32 (n x : Nat) : Nat := (x * 2 ^ n + x / 2 ^ (32 - n)) % 2 ^ 32

/-- Rotate a 32-bit word right by `n`. -/
def rotr32 (n x : Nat) : Nat := (x / 2 ^ n + x * 2 ^ (32 - n)) % 2 ^ 32

/-- Rotate a 64-bit word right by `n`. -/
def rotr64 (n x : Nat) : Nat := (x / 2 ^ n + x * 2 ^ (64 - n)) % 2 ^ 64

/-- Split a list into chunks of `k` elements (fuel-driven). -/
def chunksF : Nat → Nat → List Nat → List (List Nat)
  | 0, _, _ => []
  | _, _, [] => []
  | fuel + 1, k, l => l.take k :: chunksF fuel k (l.drop k)

def chunks (k : Nat) (l : List Nat) : List (List Nat) := chunksF l.length k l

/-- Merkle–Damgård padding: append `0x80`, zeros, then the bit length in
`lenBytes` big-endian bytes, reaching a multiple of `blockSize`. -/
def mdPad (lenBytes blockSize : Nat) (msg : List Nat) : List Nat :=
  let L := msg.length
  let zeros := (blockSize - (L + 1 + lenBytes) % blockSize) % blockSize
  msg ++ 128 :: (List.replicate zeros 0 ++ toBytesBE lenBytes (8 * L))

/-! ## SHA-1 (FIPS 180-4)

Modelled from the spec: the `internals` module's HMAC hasher delegates to a
standard library hash; we write out the standard SHA-1. -/

def sha1F (t b c d : Nat) : Nat :=
  if t < 20 then (b &&& c) ||| (((2 ^ 32 - 1) ^^^ b) &&& d)
  else if t < 40 then b ^^^ c ^^^ d
  else if t < 60 then (b &&& c) ||| (b &&& d) ||| (c &&& d)
  else b ^^^ c ^^^ d

def sha1K (t : Nat) : Nat :=
  if t < 20 then 0x5A827999
  else if t < 40 then 0x6ED9EBA1
  else if t < 60 then 0x8F1BBCDC
  else 0xCA62C1D6

/-- Extend the (reversed, newest-first) block words by `t` scheduled words. -/
def sha1SchedRev (w : List Nat) : Nat → List Nat
  | 0 => w
  | t + 1 =>
    let w := sha1SchedRev w t
    rotl32 1 ((w.getD 2 0) ^^^ (w.getD 7 0) ^^^ (w.getD 13 0) ^^^ (w.getD 15 0)) :: w

/-- The 80 scheduled words of a SHA-1 block, oldest first. -/
def sha1Sched (ws : List Nat) (t : Nat) : List Nat := (sha1SchedRev ws.reverse t).reverse

abbrev Sha1State := Nat × Nat × Nat × Nat × Nat

def sha1Step (st : Sha1State) (tw : Nat × Nat) : Sha1State :=
  match st, tw with
  | (a, b, c, d, e), (t, wt) =>
    ((rotl32 5 a + sha1F t b c d + e + sha1K t + wt) % 2 ^ 32,
      a, rotl32 30 b, c, d)

def sha1Compress (st : Sha1State) (block : List Nat) : Sha1State :=
  let w := sha1Sched ((chunks 4 block).map word32) 64
  match st, ((List.range 80).zip w).foldl sha1Step st with
  | (h0, h1, h2, h3, h4), (a, b, c, d, e) =>
    ((h0 + a) % 2 ^ 32, (h1 + b) % 2 ^ 32, (h2 + c) % 2 ^ 32,
     (h3 + d) % 2 ^ 32, (h4 + e) % 2 ^ 32)

def sha1 (msg : List Nat) : List Nat :=
  match (chunks 64 (mdPad 8 64 msg)).foldl sha1Compress
      (0x67452301, 0xEFCDAB89, 0x98BADCFE, 0x10325476, 0xC3D2E1F0) with
  | (a, b, c, d, e) =>
    toBytesBE 4 a ++ toBytesBE 4 b ++ toBytesBE 4 c ++ toBytesBE 4 d ++ toBytesBE 4 e

/-! ## SHA-256 (FIPS 180-4)

Modelled from the spec: standard library SHA-256 for the `sha256` HMAC
algorithm option. -/

def k256 : List Nat :=
  [0x428A2F98, 0x71374491, 0xB5C0FBCF, 0xE9B5DBA5, 0x3956C25B, 0x59F111F1,
   0x923F82A4, 0xAB1C5ED5, 0xD807AA98, 0x12835B01, 0x243185BE, 0x550C7DC3,
   0x72BE5D74, 0x80DEB1FE, 0x9BDC06A7, 0xC19BF174, 0xE49B69C1, 0xEFBE4786,
   0x0FC19DC6, 0x240CA1CC, 0x2DE92C6F, 0x4A7484AA, 0x5CB0A9DC, 0x76F988DA,
   0x983E5152, 0xA831C66D, 0xB00327C8, 0xBF597FC7, 0xC6E00BF3, 0xD5A79147,
   0x06CA6351, 0x14292967, 0x27B70A85, 0x2E1B2138, 0x4D2C6DFC, 0x53380D13,
   0x650A7354, 0x766A0ABB, 0x81C2C92E, 0x92722C85, 0xA2BFE8A1, 0xA81A664B,
   0xC24B8B70, 0xC76C51A3, 0xD192E819, 0xD6990624, 0xF40E3585, 0x106AA070,
   0x19A4C116, 0x1E376C08, 0x2748774C, 0x34B0BCB5, 0x391C0CB3, 0x4ED8AA4A,
   0x5B9CCA4F, 0x682E6FF3, 0x748F82EE, 0x78A5636F, 0x84C87814, 0x8CC70208,
   0x90BEFFFA, 0xA4506CEB, 0xBEF9A3F7, 0xC67178F2]

def ssig0 (x : Nat) : Nat := rotr32 7 x ^^^ rotr32 18 x ^^^ x / 2 ^ 3
def ssig1 (x : Nat) : Nat := rotr32 17 x ^^^ rotr32 19 x ^^^ x / 2 ^ 10
def bsig0 (x : Nat) : Nat := rotr32 2 x ^^^ rotr32 13 x ^^^ rotr32 22 x
def bsig1 (x : Nat) : Nat := rotr32 6 x ^^^ rotr32 11 x ^^^ rotr32 25 x

/-- Extend the (reversed, newest-first) block words by `t` scheduled words. -/
def sha256SchedRev (w : List Nat) : Nat → List Nat
  | 0 => w
  | t + 1 =>
    let w := sha256SchedRev w t
    (ssig1 (w.getD 1 0) + w.getD 6 0 + ssig0 (w.getD 14 0) + w.getD 15 0) % 2 ^ 32 :: w

def sha256Sched (ws : List Nat) (t : Nat) : List Nat := (sha256SchedRev ws.reverse t).reverse

abbrev Sha2State := Nat × Nat × Nat × Nat × Nat × Nat × Nat × Nat

def sha256Step (st : Sha2State) (kw : Nat × Nat) : Sha2State :=
  match st, kw with
  | (a, b, c, d, e, f, g, h), (kt, wt) =>
    let t1 := (h + bsig1 e + ((e &&& f) ^^^ (((2 ^ 32 - 1) ^^^ e) &&& g)) +
               kt + wt) % 2 ^ 32
    let t2 := (bsig0 a + ((a &&& b) ^^^ (a &&& c) ^^^ (b &&& c))) % 2 ^ 32
    ((t1 + t2) % 2 ^ 32, a, b, c, (d + t1) % 2 ^ 32, e, f, g)

def sha256Compress (st : Sha2State) (block : List Nat) : Sha2State :=
  let w := sha256Sched ((chunks 4 block).map word32) 48
  match st, (k256.zip w).foldl sha256Step st with
  | (h0, h1, h2, h3, h4, h5, h6, h7), (a, b, c, d, e, f, g, h) =>
    ((h0 + a) % 2 ^ 32, (h1 + b) % 2 ^ 32, (h2 + c) % 2 ^ 32, (h3 + d) % 2 ^ 32,
     (h4 + e) % 2 ^ 32, (h5 + f) % 2 ^ 32, (h6 + g) % 2 ^ 32, (h7 + h) % 2 ^ 32)

def sha256 (msg : List Nat) : List Nat :=
  match (chunks 64 (mdPad 8 64 msg)).foldl sha256Compress
      (0x6A09E667, 0xBB67AE85, 0x3C6EF372, 0xA54FF53A,
       0x510E527F, 0x9B05688C, 0x1F83D9AB, 0x5BE0CD19) with
  | (a, b, c, d, e, f, g, h) =>
    toBytesBE 4 a ++ toBytesBE 4 b ++ toBytesBE 4 c ++ toBytesBE 4 d ++
    toBytesBE 4 e ++ toBytesBE 4 f ++ toBytesBE 4 g ++ toBytesBE 4 h

/-! ## SHA-512 (FIPS 180-4)

Modelled from the spec: standard library SHA-512 for the `sha512` HMAC
algorithm option. -/

def k512 : List Nat :=
  [0x428A2F98D728AE22, 0x7137449123EF65CD, 0xB5C0FBCFEC4D3B2F,
   0xE9B5DBA58189DBBC, 0x3956C25BF348B538, 0x59F111F1B605D019,
   0x923F82A4AF194F9B, 0xAB1C5ED5DA6D8118, 0xD807AA98A3030242,
   0x12835B0145706FBE, 0x243185BE4EE4B28C, 0x550C7DC3D5FFB4E2,
   0x72BE5D74F27B896F, 0x80DEB1FE3B1696B1, 0x9BDC06A725C71235,
   0xC19BF174CF692694, 0xE49B69C19EF14AD2, 0xEFBE4786384F25E3,
   0x0FC19DC68B8CD5B5, 0x240CA1CC77AC9C65, 0x2DE92C6F592B0275,
   0x4A7484AA6EA6E483, 0x5CB0A9DCBD41FBD4, 0x76F988DA831153B5,
   0x983E5152EE66DFAB, 0xA831C66D2DB43210, 0xB00327C898FB213F,
   0xBF597FC7BEEF0EE4, 0xC6E00BF33DA88FC2, 0xD5A79147930AA725,
   0x06CA6351E003826F, 0x142929670A0E6E70, 0x27B70A8546D22FFC,
   0x2E1B21385C26C926, 0x4D2C6DFC5AC42AED, 0x53380D139D95B3DF,
   0x650A73548BAF63DE, 0x766A0ABB3C77B2A8, 0x81C2C92E47EDAEE6,
   0x92722C851482353B, 0xA2BFE8A14CF10364, 0xA81A664BBC423001,
   0xC24B8B70D0F89791, 0xC76C51A30654BE30, 0xD192E819D6EF5218,
   0xD69906245565A910, 0xF40E35855771202A, 0x106AA07032BBD1B8,
   0x19A4C116B8D2D0C8, 0x1E376C085141AB53, 0x2748774CDF8EEB99,
   0x34B0BCB5E19B48A8, 0x391C0CB3C5C95A63, 0x4ED8AA4AE3418ACB,
   0x5B9CCA4F7763E373, 0x682E6FF3D6B2B8A3, 0x748F82EE5DEFB2FC,
   0x78A5636F43172F60, 0x84C87814A1F0AB72, 0x8CC702081A6439EC,
   0x90BEFFFA23631E28, 0xA4506CEBDE82BDE9, 0xBEF9A3F7B2C67915,
   0xC67178F2E372532B, 0xCA273ECEEA26619C, 0xD186B8C721C0C207,
   0xEADA7DD6CDE0EB1E, 0xF57D4F7FEE6ED178, 0x06F067AA72176FBA,
   0x0A637DC5A2C898A6, 0x113F9804BEF90DAE, 0x1B710B35131C471B,
   0x28DB77F523047D84, 0x32CAAB7B40C72493, 0x3C9EBE0A15C9BEBC,
   0x431D67C49C100D4C, 0x4CC5D4BECB3E42B6, 0x597F299CFC657E2A,
   0x5FCB6FAB3AD6FAEC, 0x6C44198C4A475817]

/-- Interpret a byte list as a big-endian 64-bit word. -/
def word64 (l : List Nat) : Nat := l.foldl (fun a b => a * 256 + b) 0

def ssig0w (x : Nat) : Nat := rotr64 1 x ^^^ rotr64 8 x ^^^ x / 2 ^ 7
def ssig1w (x : Nat) : Nat := rotr64 19 x ^^^ rotr64 61 x ^^^ x / 2 ^ 6
def bsig0w (x : Nat) : Nat := rotr64 28 x ^^^ rotr64 34 x ^^^ rotr64 39 x
def bsig1w (x : Nat) : Nat := rotr64 14 x ^^^ rotr64 18 x ^^^ rotr64 41 x

/-- Extend the (reversed, newest-first) block words by `t` scheduled words. -/
def sha512SchedRev (w : List Nat) : Nat → List Nat
  | 0 => w
  | t + 1 =>
    let w := sha512SchedRev w t
    (ssig1w (w.getD 1 0) + w.getD 6 0 + ssig0w (w.getD 14 0) + w.getD 15 0) % 2 ^ 64 :: w

def sha512Sched (ws : List Nat) (t : Nat) : List Nat := (sha512SchedRev ws.reverse t).reverse

def sha512Step (st : Sha2State) (kw : Nat × Nat) : Sha2State :=
  match st, kw with
  | (a, b, c, d, e, f, g, h), (kt, wt) =>
    let t1 := (h + bsig1w e + ((e &&& f) ^^^ (((2 ^ 64 - 1) ^^^ e) &&& g)) +
               kt + wt) % 2 ^ 64
    let t2 := (bsig0w a + ((a &&& b) ^^^ (a &&& c) ^^^ (b &&& c))) % 2 ^ 64
    ((t1 + t2) % 2 ^ 64, a, b, c, (d + t1) % 2 ^ 64, e, f, g)

def sha512Compress (st : Sha2State) (block : List Nat) : Sha2State :=
  let w := sha512Sched ((chunks 8 block).map word64) 64
  match st, (k512.zip w).foldl sha512Step st with
  | (h0, h1, h2, h3, h4, h5, h6, h7), (a, b, c, d, e, f, g, h) =>
    ((h0 + a) % 2 ^ 64, (h1 + b) % 2 ^ 64, (h2 + c) % 2 ^ 64, (h3 + d) % 2 ^ 64,
     (h4 + e) % 2 ^ 64, (h5 + f) % 2 ^ 64, (h6 + g) % 2 ^ 64, (h7 + h) % 2 ^ 64)

def sha512 (msg : List Nat) : List Nat :=
  match (chunks 128 (mdPad 16 128 msg)).foldl sha512Compress
      (0x6A09E667F3BCC908, 0xBB67AE8584CAA73B, 0x3C6EF372FE94F82B,
       0xA54FF53A5F1D36F1, 0x510E527FADE682D1, 0x9B05688C2B3E6C1F,
       0x1F83D9ABFB41BD6B, 0x5BE0CD19137E2179) with
  | (a, b, c, d, e, f, g, h) =>
    toBytesBE 8 a ++ toBytesBE 8 b ++ toBytesBE 8 c ++ toBytesBE 8 d ++
    toBytesBE 8 e ++ toBytesBE 8 f ++ toBytesBE 8 g ++ toBytesBE 8 h

/-! ## HMAC (RFC 2104)

Modelled from the spec (§4.2): the `internals` module's HMAC hasher over a
standard hash primitive, parameterised by the algorithm. -/

/-- The recognized HMAC hash algorithms (`src/types.ts` via `core.ts`). -/
inductive Algorithm
  | sha1
  | sha256
  | sha512
deriving DecidableEq, Repr

/-- The recognized secret text encodings (`src/types.ts` via `core.ts`). -/
inductive Encoding
  | ascii
  | hex
  | base32
  | base64
deriving DecidableEq, Repr

def hashBytes : Algorithm → List Nat → List Nat
  | .sha1 => sha1
  | .sha256 => sha256
  | .sha512 => sha512

def hashBlockSize : Algorithm → Nat
  | .sha1 => 64
  | .sha256 => 64
  | .sha512 => 128

def digestLength : Algorithm → Nat
  | .sha1 => 20
  | .sha256 => 32
  | .sha512 => 64

/-- HMAC over the given hash algorithm (RFC 2104). -/
def hmac (alg : Algorithm) (key msg : List Nat) : List Nat :=
  let B := hashBlockSize alg
  let k0 := if B < key.length then hashBytes alg key else key
  let k1 := k0 ++ List.replicate (B - k0.length) 0
  hashBytes alg ((k1.map fun b => b ^^^ 0x5C) ++
    hashBytes alg ((k1.map fun b => b ^^^ 0x36) ++ msg))

/-- ASCII bytes of a string (each code unit reduced mod 256, as the byte
codec does). -/
def asciiBytes (s : String) : List Nat := s.data.map fun c => c.toNat % 256

/-! ## Hex / Base32 / Base64 codecs (RFC 4648)

Modelled from the spec (§4.8, §3): standard codecs used to decode secrets
and to render the generated secret bundle. -/

def hexDigitChar (n : Nat) : Char := "0123456789abcdef".data.getD n '?'

def hexVal (c : Char) : Option Nat :=
  match "0123456789abcdef".data.indexOf? c with
  | some i => some i
  | none =>
    match "ABCDEF".data.indexOf? c with
    | some i => some (10 + i)
    | none => none

def hexEncodeBytes (l : List Nat) : List Char :=
  l.foldr (fun b acc => hexDigitChar (b / 16) :: hexDigitChar (b % 16) :: acc) []

def hexDecodePairs : List Char → Option (List Nat)
  | [] => some []
  | c1 :: c2 :: rest => do
    let hi ← hexVal c1
    let lo ← hexVal c2
    let tail ← hexDecodePairs rest
    some ((hi * 16 + lo) :: tail)
  | _ => none

def b64Alphabet : List Char :=
  "ABCDEFGHIJKLMNOPQRSTUVWXYZabcdefghijklmnopqrstuvwxyz0123456789+/".data

def b64Char (i : Nat) : Char := b64Alphabet.getD i '?'

def b64Index (c : Char) : Option Nat := b64Alphabet.indexOf? c

/-- RFC 4648 Base64 encoding, with `=` padding retained. -/
def b64EncodeGroups : List Nat → List Char
  | b1 :: b2 :: b3 :: rest =>
    b64Char (b1 / 4) :: b64Char ((b1 % 4) * 16 + b2 / 16) ::
    b64Char ((b2 % 16) * 4 + b3 / 64) :: b64Char (b3 % 64) :: b64EncodeGroups rest
  | [b1, b2] => [b64Char (b1 / 4), b64Char ((b1 % 4) * 16 + b2 / 16),
                 b64Char ((b2 % 16) * 4), '=']
  | [b1] => [b64Char (b1 / 4), b64Char ((b1 % 4) * 16), '=', '=']
  | [] => []

/-- RFC 4648 Base64 decoding (padded input). -/
def b64DecodeGroups : List Char → Option (List Nat)
  | c1 :: c2 :: c3 :: c4 :: rest => do
    let i1 ← b64Index c1
    let i2 ← b64Index c2
    if c3 = '=' ∧ c4 = '=' ∧ rest = [] then
      some [i1 * 4 + i2 / 16]
    else if c4 = '=' ∧ rest = [] then do
      let i3 ← b64Index c3
      some [i1 * 4 + i2 / 16, (i2 % 16) * 16 + i3 / 4]
    else do
      let i3 ← b64Index c3
      let i4 ← b64Index c4
      let tail ← b64DecodeGroups rest
      some ((i1 * 4 + i2 / 16) :: ((i2 % 16) * 16 + i3 / 4) :: ((i3 % 4) * 64 + i4) :: tail)
  | [] => some []
  | _ => none

def b32Alphabet : List Char := "ABCDEFGHIJKLMNOPQRSTUVWXYZ234567".data

def b32Char (i : Nat) : Char := b32Alphabet.getD i '?'

def b32Index (c : Char) : Option Nat := b32Alphabet.indexOf? c

/-- RFC 4648 Base32 encoding, with `=` padding retained. -/
def b32EncodeGroups : List Nat → List Char
  | b1 :: b2 :: b3 :: b4 :: b5 :: rest =>
    b32Char (b1 / 8) :: b32Char ((b1 % 8) * 4 + b2 / 64) :: b32Char (b2 / 2 % 32) ::
    b32Char ((b2 % 2) * 16 + b3 / 16) :: b32Char ((b3 % 16) * 2 + b4 / 128) ::
    b32Char (b4 / 4 % 32) :: b32Char ((b4 % 4) * 8 + b5 / 32) :: b32Char (b5 % 32) ::
    b32EncodeGroups rest
  | [b1, b2, b3, b4] =>
    [b32Char (b1 / 8), b32Char ((b1 % 8) * 4 + b2 / 64), b32Char (b2 / 2 % 32),
     b32Char ((b2 % 2) * 16 + b3 / 16), b32Char ((b3 % 16) * 2 + b4 / 128),
     b32Char (b4 / 4 % 32), b32Char ((b4 % 4) * 8), '=']
  | [b1, b2, b3] =>
    [b32Char (b1 / 8), b32Char ((b1 % 8) * 4 + b2 / 64), b32Char (b2 / 2 % 32),
     b32Char ((b2 % 2) * 16 + b3 / 16), b32Char ((b3 % 16) * 2), '=', '=', '=']
  | [b1, b2] =>
    [b32Char (b1 / 8), b32Char ((b1 % 8) * 4 + b2 / 64), b32Char (b2 / 2 % 32),
     b32Char ((b2 % 2) * 16), '=', '=', '=', '=']
  | [b1] =>
    [b32Char (b1 / 8), b32Char ((b1 % 8) * 4), '=', '=', '=', '=', '=', '=']
  | [] => []

/-- RFC 4648 Base32 decoding (padded input). -/
def b32DecodeGroups : List Char → Option (List Nat)
  | c1 :: c2 :: c3 :: c4 :: c5 :: c6 :: c7 :: c8 :: rest => do
    let i1 ← b32Index c1
    let i2 ← b32Index c2
    if c3 = '=' ∧ c4 = '=' ∧ c5 = '=' ∧ c6 = '=' ∧ c7 = '=' ∧ c8 = '=' ∧ rest = [] then
      some [i1 * 8 + i2 / 4]
    else do
      let i3 ← b32Index c3
      let i4 ← b32Index c4
      if c5 = '=' ∧ c6 = '=' ∧ c7 = '=' ∧ c8 = '=' ∧ rest = [] then
        some [i1 * 8 + i2 / 4, (i2 % 4) * 64 + i3 * 2 + i4 / 16]
      else do
        let i5 ← b32Index c5
        if c6 = '=' ∧ c7 = '=' ∧ c8 = '=' ∧ rest = [] then
          some [i1 * 8 + i2 / 4, (i2 % 4) * 64 + i3 * 2 + i4 / 16,
                (i4 % 16) * 16 + i5 / 2]
        else do
          let i6 ← b32Index c6
          let i7 ← b32Index c7
          if c8 = '=' ∧ rest = [] then
            some [i1 * 8 + i2 / 4, (i2 % 4) * 64 + i3 * 2 + i4 / 16,
                  (i4 % 16) * 16 + i5 / 2, (i5 % 2) * 128 + i6 * 4 + i7 / 8]
          else do
            let i8 ← b32Index c8
            let tail ← b32DecodeGroups rest
            some ((i1 * 8 + i2 / 4) :: ((i2 % 4) * 64 + i3 * 2 + i4 / 16) ::
                  ((i4 % 16) * 16 + i5 / 2) :: ((i5 % 2) * 128 + i6 * 4 + i7 / 8) ::
                  ((i7 % 8) * 32 + i8) :: tail)
  | [] => some []
  | _ => none

/-- Decode a secret string under its declared encoding (spec §4.2);
`none` models the `InvalidSecretEncoding` error. -/
def decodeSecret : Encoding → String → Option (List Nat)
  | .ascii, s => some (asciiBytes s)
  | .hex, s => hexDecodePairs s.data
  | .base32, s => b32DecodeGroups s.data
  | .base64, s => b64DecodeGroups s.data

/-! ## The internals consumed by `core.ts`

`hmacHash`, `dynamicTruncate` and `generateCounterFromTime` are imported by
`core.ts` from the repository's `internals` module, which is not among the
provided sources; each is modelled from the spec. -/

/-- Modelled from the spec (§4.1, missing `internals` module): the counter
codec renders a counter as 8 big-endian bytes and fails (`InvalidCounter`)
when the counter is negative or does not fit in 8 bytes. -/
def counterBytes (c : Int) : Option (List Nat) :=
  if 0 ≤ c ∧ c < 2 ^ 64 then some (toBytesBE 8 c.toNat) else none

/-- Modelled from the spec (§4.3, missing `internals` module): RFC 4226 §5.3
dynamic truncation; `none` models the `TruncationRangeError`. -/
def dynamicTruncate (digest : List Nat) : Option Nat :=
  match digest.getLast? with
  | none => none
  | some lastByte =>
    let offset := lastByte % 16
    if offset + 4 ≤ digest.length then
      some (word32 ((digest.drop offset).take 4) % 2 ^ 31)
    else none

/-- Modelled from the spec (§4.6, missing `internals` module): the
time-to-counter derivation `floor(time / step)`; `none` models the
`InvalidStep` error for `step = 0`. -/
def generateCounterFromTime (time step : Nat) : Option Nat :=
  if step = 0 then none else some (time / step)

/-! ## The HOTP engine (`core.ts`) -/

/-- `HOTPGenerateOptions` with the defaults of `hoptGenerateDefaults`
already merged in. -/
structure HOTPGenerateOptions where
  secret : String
  counter : Int
  digits : Nat := 6
  encoding : Encoding := Encoding.ascii
  algorithm : Algorithm := Algorithm.sha1

/-- Modelled from the spec (§4.2, missing `internals` module): decode the
secret, encode the counter, and HMAC the counter bytes under the key. -/
def hmacHash (o : HOTPGenerateOptions) : Option (List Nat) := do
  let key ← decodeSecret o.encoding o.secret
  let msg ← counterBytes o.counter
  some (hmac o.algorithm key msg)

/-- Little-endian decimal digits, driven by fuel so that the kernel can
evaluate it; agrees with `Nat.digits 10` (see `decAux_eq_digits`). -/
def decAux : Nat → Nat → List Nat
  | 0, _ => []
  | _, 0 => []
  | f + 1, n => n % 10 :: decAux f (n / 10)

/-- Little-endian decimal digits of `n`. -/
def decDigits (n : Nat) : List Nat := decAux n n

/-- JS `Number.prototype.toString()`: the decimal digit characters of a
natural number. -/
def decChars (v : Nat) : List Char :=
  if v = 0 then ['0'] else ((decDigits v).map fun d => Char.ofNat (48 + d)).reverse

/-- JS `s.substr(-digits)` on a character list: the last `digits`
characters, except that `digits = 0` (where JS computes start index `-0`,
that is `0`) yields the whole string. -/
def substrNeg (l : List Char) (digits : Nat) : List Char :=
  if digits = 0 then l else l.drop (l.length - digits)

/-- `hotpGenerate` from `src/core.ts`:
`dynamicTruncate(hmacHash(opts)).toString().substr(-opts.digits)`. -/
def hotpGenerate (o : HOTPGenerateOptions) : Option String := do
  let hash ← hmacHash o
  let code ← dynamicTruncate hash
  some ⟨substrNeg (decChars code) o.digits⟩

/-- `HOTPVerifyOptions` with the defaults of `hotpVerifyDefaults` merged. -/
structure HOTPVerifyOptions where
  secret : String
  counter : Int
  code : String
  window : Int := 0
  digits : Nat := 6
  encoding : Encoding := Encoding.ascii
  algorithm : Algorithm := Algorithm.sha1

/-- `{valid, delta?}` (`OTPVerificationResult` in `src/core.ts`). -/
structure OTPVerificationResult where
  valid : Bool
  delta : Option Int := none
deriving DecidableEq, Repr

/-- The generate options the verify loop passes to `hotpGenerate`
(`{...opts, counter: c}`). -/
def genOptions (o : HOTPVerifyOptions) (c : Int) : HOTPGenerateOptions :=
  { secret := o.secret, counter := c, digits := o.digits,
    encoding := o.encoding, algorithm := o.algorithm }

/-- The verify loop of `hotpVerify`, starting at candidate counter `c` with
`n` iterations left: generate at `c`, return on a string match, otherwise
continue at `c + 1`. -/
def verifyFrom (o : HOTPVerifyOptions) (c : Int) : Nat → Option OTPVerificationResult
  | 0 => some { valid := false }
  | n + 1 =>
    match hotpGenerate (genOptions o c) with
    | none => none
    | some s =>
      if s = o.code then some { valid := true, delta := some (c - o.counter) }
      else verifyFrom o (c + 1) n

/-- `hotpVerify` from `src/core.ts`: the loop
`for (let c = counter; c <= counter + window; c += 1)` runs
`max(window + 1, 0)` times. -/
def hotpVerify (o : HOTPVerifyOptions) : Option OTPVerificationResult :=
  verifyFrom o o.counter (o.window + 1).toNat

/-! ## The TOTP engine (`core.ts`) -/

/-- `TOTPGenerateOptions` with defaults merged; `time` (defaulted by JS to
the current clock) is explicit here. -/
structure TOTPGenerateOptions where
  secret : String
  time : Nat
  step : Nat := 30
  digits : Nat := 6
  encoding : Encoding := Encoding.ascii
  algorithm : Algorithm := Algorithm.sha1

/-- `totpGenerate` from `src/core.ts`: derive the counter from the time and
delegate to `hotpGenerate`. -/
def totpGenerate (o : TOTPGenerateOptions) : Option String := do
  let counter ← generateCounterFromTime o.time o.step
  hotpGenerate { secret := o.secret, counter := (counter : Int), digits := o.digits,
                 encoding := o.encoding, algorithm := o.algorithm }

/-- `TOTPVerifyOptions` with defaults merged; `time` is explicit. -/
structure TOTPVerifyOptions where
  secret : String
  code : String
  window : Int := 0
  time : Nat
  step : Nat := 30
  digits : Nat := 6
  encoding : Encoding := Encoding.ascii
  algorithm : Algorithm := Algorithm.sha1

/-- The `HOTPVerifyOptions` that `totpVerify` hands to `hotpVerify` once
the counter `counter0` has been derived: the counter shifted back by
`window` and the window doubled (`{...opts, window, counter}`). -/
def totpInner (o : TOTPVerifyOptions) (counter0 : Nat) : HOTPVerifyOptions :=
  { secret := o.secret, counter := (counter0 : Int) - o.window, code := o.code,
    window := o.window * 2, digits := o.digits, encoding := o.encoding,
    algorithm := o.algorithm }

/-- `totpVerify` from `src/core.ts`: shift the counter back by `window`,
double the window, run `hotpVerify`, then (when valid and a delta is
present) re-center the delta by subtracting `window`. -/
def totpVerify (o : TOTPVerifyOptions) : Option OTPVerificationResult := do
  let counter0 ← generateCounterFromTime o.time o.step
  let result ← hotpVerify (totpInner o counter0)
  if result.valid then
    match result.delta with
    | some d => some { valid := result.valid, delta := some (d - o.window) }
    | none => some result
  else some result

/-! ## The secret generator (`core.ts`) -/

/-- The four-encoding bundle (`SecretResult` in `src/core.ts`). -/
structure SecretResult where
  ascii : String
  hex : String
  base32 : String
  base64 : String
deriving DecidableEq, Repr

/-- `generateSecret` from `src/core.ts`, parameterised by the string the
external random source (`randomstring(length)`, modelled from the spec
§4.8 as `length` printable-ASCII characters) produced: the four encodings
of that string's ASCII bytes, with every `=` removed from the Base32 form
(`.replace(/=/g, '')`). -/
def generateSecret (secret : String) : SecretResult :=
  { ascii := secret,
    hex := ⟨hexEncodeBytes (asciiBytes secret)⟩,
    base32 := ⟨(b32EncodeGroups (asciiBytes secret)).filter fun c => c ≠ '='⟩,
    base64 := ⟨b64EncodeGroups (asciiBytes secret)⟩ }

/-- The truncated value `hotpGenerate` formats: HMAC then dynamic
truncation. -/
def hotpCode (o : HOTPGenerateOptions) : Option Nat :=
  (hmacHash o).bind dynamicTruncate

/-- The spec's decimal formatter (§4.4), stated in the spec's own words:
`(value mod 10^digits)` rendered in decimal and left-padded with zeros to
exactly `digits` characters.  Used to compare the source's substring
formatter against the spec. -/
def specFormat (digits v : Nat) : List Char :=
  let m := decChars (v % 10 ^ digits)
  List.replicate (digits - m.length) '0' ++ m

/-- The RFC 4226 / RFC 6238 test secret. -/
def rfcSecret : String := "12345678901234567890"

/-! # Theorems

Basic facts about the embedded primitives, RFC test vectors validating the
model, then the claim theorems. -/

theorem toBytesBE_length (k n : Nat) : (toBytesBE k n).length = k := by
  induction k generalizing n with
  | zero => rfl
  | succ k ih => simp [toBytesBE, ih]

theorem sha1_length (msg : List Nat) : (sha1 msg).length = 20 := by
  unfold sha1
  obtain ⟨a, b, c, d, e⟩ := (chunks 64 (mdPad 8 64 msg)).foldl sha1Compress
      (0x67452301, 0xEFCDAB89, 0x98BADCFE, 0x10325476, 0xC3D2E1F0)
  simp [toBytesBE_length]

theorem sha256_length (msg : List Nat) : (sha256 msg).length = 32 := by
  unfold sha256
  obtain ⟨a, b, c, d, e, f, g, h⟩ := (chunks 64 (mdPad 8 64 msg)).foldl sha256Compress
      (0x6A09E667, 0xBB67AE85, 0x3C6EF372, 0xA54FF53A,
       0x510E527F, 0x9B05688C, 0x1F83D9AB, 0x5BE0CD19)
  simp [toBytesBE_length]

theorem sha512_length (msg : List Nat) : (sha512 msg).length = 64 := by
  unfold sha512
  obtain ⟨a, b, c, d, e, f, g, h⟩ := (chunks 128 (mdPad 16 128 msg)).foldl sha512Compress
      (0x6A09E667F3BCC908, 0xBB67AE8584CAA73B, 0x3C6EF372FE94F82B,
       0xA54FF53A5F1D36F1, 0x510E527FADE682D1, 0x9B05688C2B3E6C1F,
       0x1F83D9ABFB41BD6B, 0x5BE0CD19137E2179)
  simp [toBytesBE_length]

theorem hashBytes_length (alg : Algorithm) (msg : List Nat) :
    (hashBytes alg msg).length = digestLength alg := by
  cases alg with
  | sha1 => exact sha1_length msg
  | sha256 => exact sha256_length msg
  | sha512 => exact sha512_length msg

theorem hmac_length (alg : Algorithm) (key msg : List Nat) :
    (hmac alg key msg).length = digestLength alg := by
  unfold hmac
  exact hashBytes_length alg _

theorem decAux_eq_digits (f n : Nat) (h : n ≤ f) : decAux f n = Nat.digits 10 n := by
  induction f generalizing n with
  | zero =>
    interval_cases n
    simp [decAux]
  | succ f ih =>
    match n with
    | 0 => simp [decAux]
    | n + 1 =>
      rw [show decAux (f + 1) (n + 1) = (n + 1) % 10 :: decAux f ((n + 1) / 10) from rfl,
        Nat.digits_def' (by norm_num : 1 < 10) (Nat.succ_pos n),
        ih ((n + 1) / 10) (by omega)]

theorem decDigits_eq (n : Nat) : decDigits n = Nat.digits 10 n :=
  decAux_eq_digits n n le_rfl

/-! ## Test vectors validating the embedded model -/

example : sha1 [] =
    [0xDA, 0x39, 0xA3, 0xEE, 0x5E, 0x6B, 0x4B, 0x0D, 0x32, 0x55,
     0xBF, 0xEF, 0x95, 0x60, 0x18, 0x90, 0xAF, 0xD8, 0x07, 0x09] := by
  decide

example : sha256 [0x61, 0x62, 0x63] =
    [0xBA, 0x78, 0x16, 0xBF, 0x8F, 0x01, 0xCF, 0xEA, 0x41, 0x41, 0x40,
     0xDE, 0x5D, 0xAE, 0x22, 0x23, 0xB0, 0x03, 0x61, 0xA3, 0x96, 0x17,
     0x7A, 0x9C, 0xB4, 0x10, 0xFF, 0x61, 0xF2, 0x00, 0x15, 0xAD] := by
  decide

example : sha512 [0x61, 0x62, 0x63] =
    [0xDD, 0xAF, 0x35, 0xA1, 0x93, 0x61, 0x7A, 0xBA, 0xCC, 0x41, 0x73, 0x49,
     0xAE, 0x20, 0x41, 0x31, 0x12, 0xE6, 0xFA, 0x4E, 0x89, 0xA9, 0x7E, 0xA2,
     0x0A, 0x9E, 0xEE, 0xE6, 0x4B, 0x55, 0xD3, 0x9A, 0x21, 0x92, 0x99, 0x2A,
     0x27, 0x4F, 0xC1, 0xA8, 0x36, 0xBA, 0x3C, 0x23, 0xA3, 0xFE, 0xEB, 0xBD,
     0x45, 0x4D, 0x44, 0x23, 0x64, 0x3C, 0xE8, 0x0E, 0x2A, 0x9A, 0xC9, 0x4F,
     0xA5, 0x4C, 0xA4, 0x9F] := by
  decide

-- RFC 2202 test case 2: HMAC-SHA1 of "what do ya want for nothing?"
-- under key "Jefe".
example : hmac .sha1 (asciiBytes "Jefe") (asciiBytes "what do ya want for nothing?") =
    [0xEF, 0xFC, 0xDF, 0x6A, 0xE5, 0xEB, 0x2F, 0xA2, 0xD2, 0x74,
     0x16, 0xD5, 0xF1, 0x84, 0xDF, 0x9C, 0x25, 0x9A, 0x7C, 0x79] := by
  decide

-- RFC 4226 Appendix D vectors, counters 0 and 1.
example : hotpGenerate { secret := rfcSecret, counter := 0 } = some "755224" := by
  decide

example : hotpGenerate { secret := rfcSecret, counter := 1 } = some "287082" := by
  decide

-- RFC 6238, time 59 and step 30 derive counter 1.
example : totpGenerate { secret := rfcSecret, time := 59 } = some "287082" := by
  decide

/-! ## Success of code generation -/

theorem hmacHash_eq_some (o : HOTPGenerateOptions) (key : List Nat)
    (hk : decodeSecret o.encoding o.secret = some key)
    (h0 : 0 ≤ o.counter) (h1 : o.counter < 2 ^ 64) :
    hmacHash o = some (hmac o.algorithm key (toBytesBE 8 o.counter.toNat)) := by
  have h1' : o.counter < 18446744073709551616 := by norm_num at h1; exact h1
  simp [hmacHash, counterBytes, hk, h0, h1']

theorem digestLength_ge (alg : Algorithm) : 20 ≤ digestLength alg := by
  cases alg <;> simp [digestLength]

theorem dynamicTruncate_some (digest : List Nat) (h : 20 ≤ digest.length) :
    ∃ v, dynamicTruncate digest = some v ∧ v < 2 ^ 31 := by
  have hne : digest ≠ [] := by
    intro hd
    rw [hd] at h
    simp at h
  obtain ⟨lb, hlb⟩ := Option.isSome_iff_exists.mp (List.getLast?_isSome.mpr hne)
  have hoff : lb % 16 + 4 ≤ digest.length := by
    have := Nat.mod_lt lb (y := 16) (by norm_num)
    omega
  refine ⟨word32 ((digest.drop (lb % 16)).take 4) % 2 ^ 31, ?_,
    Nat.mod_lt _ (by norm_num)⟩
  unfold dynamicTruncate
  rw [hlb]
  simp [hoff]

theorem hotpCode_some (o : HOTPGenerateOptions) (key : List Nat)
    (hk : decodeSecret o.encoding o.secret = some key)
    (h0 : 0 ≤ o.counter) (h1 : o.counter < 2 ^ 64) :
    ∃ v, hotpCode o = some v ∧ v < 2 ^ 31 := by
  have hdig : 20 ≤ (hmac o.algorithm key (toBytesBE 8 o.counter.toNat)).length := by
    rw [hmac_length]
    exact digestLength_ge o.algorithm
  obtain ⟨v, hv, hvlt⟩ := dynamicTruncate_some _ hdig
  exact ⟨v, by rw [hotpCode, hmacHash_eq_some o key hk h0 h1, Option.some_bind, hv], hvlt⟩

theorem hotpGenerate_eq_of_code (o : HOTPGenerateOptions) (v : Nat)
    (hv : hotpCode o = some v) :
    hotpGenerate o = some ⟨substrNeg (decChars v) o.digits⟩ := by
  rw [hotpCode] at hv
  match hh : hmacHash o with
  | none => rw [hh] at hv; simp at hv
  | some digest =>
    rw [hh, Option.some_bind] at hv
    simp only [hotpGenerate, hh, Option.bind_eq_bind, Option.some_bind, hv]

theorem hotpGenerate_some (o : HOTPGenerateOptions) (key : List Nat)
    (hk : decodeSecret o.encoding o.secret = some key)
    (h0 : 0 ≤ o.counter) (h1 : o.counter < 2 ^ 64) :
    ∃ v, v < 2 ^ 31 ∧ hotpCode o = some v ∧
      hotpGenerate o = some ⟨substrNeg (decChars v) o.digits⟩ := by
  obtain ⟨v, hv, hvlt⟩ := hotpCode_some o key hk h0 h1
  exact ⟨v, hvlt, hv, hotpGenerate_eq_of_code o v hv⟩

/-! ## The verify loop -/

theorem verifyFrom_delta_iff (o : HOTPVerifyOptions) (c : Int) (n : Nat)
    (r : OTPVerificationResult) (h : verifyFrom o c n = some r) :
    r.delta ≠ none ↔ r.valid = true := by
  induction n generalizing c with
  | zero =>
    rw [verifyFrom] at h
    obtain rfl := Option.some.inj h
    simp
  | succ n ih =>
    match hg : hotpGenerate (genOptions o c) with
    | none => rw [verifyFrom, hg] at h; exact absurd h (by simp)
    | some s =>
      have step : verifyFrom o c (n + 1) =
          if s = o.code then some { valid := true, delta := some (c - o.counter) }
          else verifyFrom o (c + 1) n := by
        simp only [verifyFrom, hg]
      rw [step] at h
      by_cases hs : s = o.code
      · rw [if_pos hs] at h
        obtain rfl := Option.some.inj h
        simp
      · rw [if_neg hs] at h
        exact ih (c + 1) h

theorem verifyFrom_head (o : HOTPVerifyOptions) (c : Int) (n : Nat)
    (h : hotpGenerate (genOptions o c) = some o.code) :
    verifyFrom o c (n + 1) = some { valid := true, delta := some (c - o.counter) } := by
  rw [verifyFrom, h]
  simp

theorem hotpVerify_delta_iff (o : HOTPVerifyOptions) (r : OTPVerificationResult)
    (h : hotpVerify o = some r) : r.delta ≠ none ↔ r.valid = true :=
  verifyFrom_delta_iff o o.counter (o.window + 1).toNat r h

theorem totpVerify_delta_iff (o : TOTPVerifyOptions) (r : OTPVerificationResult)
    (h : totpVerify o = some r) : r.delta ≠ none ↔ r.valid = true := by
  rw [totpVerify] at h
  match hc : generateCounterFromTime o.time o.step with
  | none => rw [hc] at h; exact absurd h (by simp)
  | some c0 =>
    simp only [hc, Option.bind_eq_bind, Option.some_bind] at h
    match hv : hotpVerify (totpInner o c0) with
    | none => rw [hv] at h; exact absurd h (by simp)
    | some res =>
      simp only [hv, Option.bind_eq_bind, Option.some_bind] at h
      have hres := hotpVerify_delta_iff _ res hv
      by_cases hvalid : res.valid = true
      · rw [if_pos hvalid] at h
        match hd : res.delta with
        | some d =>
          rw [hd] at h
          obtain rfl := Option.some.inj h
          simp [hvalid]
        | none =>
          exact absurd hd (by simpa [hvalid] using hres)
      · rw [if_neg hvalid] at h
        obtain rfl := Option.some.inj h
        simp only [hres]

theorem genOptions_isSome (o : HOTPVerifyOptions) (key : List Nat)
    (hk : decodeSecret o.encoding o.secret = some key)
    (c : Int) (h0 : 0 ≤ c) (h1 : c < 2 ^ 64) :
    (hotpGenerate (genOptions o c)).isSome := by
  obtain ⟨v, -, -, hgen⟩ := hotpGenerate_some (genOptions o c) key
    (by simpa [genOptions] using hk) h0 h1
  simp [hgen]

/-- The verify loop returns `{valid: true, delta: d}` exactly when some
in-range candidate offset `e` matches and no earlier one does. -/
theorem verifyFrom_valid_iff (o : HOTPVerifyOptions) (c : Int) (n : Nat) (d : Int)
    (hgen : ∀ e : Int, 0 ≤ e → e < n → (hotpGenerate (genOptions o (c + e))).isSome) :
    verifyFrom o c n = some { valid := true, delta := some d } ↔
      ∃ e : Int, 0 ≤ e ∧ e < n ∧ d = c + e - o.counter ∧
        hotpGenerate (genOptions o (c + e)) = some o.code ∧
        ∀ f : Int, 0 ≤ f → f < e → hotpGenerate (genOptions o (c + f)) ≠ some o.code := by
  induction n generalizing c with
  | zero =>
    rw [verifyFrom]
    constructor
    · intro h
      exact absurd (Option.some.inj h) (by simp)
    · rintro ⟨e, he0, helt, -⟩
      exact absurd helt (by push_cast; omega)
  | succ n ih =>
    have h0 : (hotpGenerate (genOptions o (c + 0))).isSome :=
      hgen 0 le_rfl (by push_cast; omega)
    rw [add_zero] at h0
    obtain ⟨s, hs⟩ := Option.isSome_iff_exists.mp h0
    have step : verifyFrom o c (n + 1) =
        if s = o.code then some { valid := true, delta := some (c - o.counter) }
        else verifyFrom o (c + 1) n := by
      simp only [verifyFrom, hs]
    by_cases hm : s = o.code
    · subst hm
      rw [step, if_pos rfl]
      constructor
      · intro h
        have hd : some (c - o.counter) = some d :=
          congrArg OTPVerificationResult.delta (Option.some.inj h)
        have hd' : c - o.counter = d := Option.some.inj hd
        refine ⟨0, le_rfl, by push_cast; omega, by omega, by rwa [add_zero], ?_⟩
        intro f hf0 hfe
        exact absurd hfe (by omega)
      · rintro ⟨e, he0, helt, hd, hgene, hprev⟩
        have he : e = 0 := by
          by_contra hne
          have := hprev 0 le_rfl (by omega)
          rw [add_zero] at this
          exact this hs
        subst he
        rw [add_zero] at hd
        rw [hd]
    · have hgen' : ∀ e : Int, 0 ≤ e → e < n →
          (hotpGenerate (genOptions o (c + 1 + e))).isSome := by
        intro e he0 hen
        have := hgen (e + 1) (by omega) (by push_cast; omega)
        rwa [show c + (e + 1) = c + 1 + e by ring] at this
      rw [step, if_neg hm, ih (c + 1) hgen']
      constructor
      · rintro ⟨e, he0, hen, hd, hgene, hprev⟩
        refine ⟨e + 1, by omega, by push_cast; omega, by omega,
          by rwa [show c + (e + 1) = c + 1 + e by ring], ?_⟩
        intro f hf0 hfe1
        by_cases hf : f = 0
        · subst hf
          rw [add_zero]
          intro hcontra
          exact hm (Option.some.inj (hs.symm.trans hcontra))
        · have := hprev (f - 1) (by omega) (by omega)
          rwa [show c + 1 + (f - 1) = c + f by ring] at this
      · rintro ⟨e, he0, hen1, hd, hgene, hprev⟩
        have hene : e ≠ 0 := by
          intro h0e
          subst h0e
          rw [add_zero] at hgene
          exact hm (Option.some.inj (hs.symm.trans hgene))
        refine ⟨e - 1, by omega, by push_cast at hen1; omega, by omega,
          by rwa [show c + 1 + (e - 1) = c + e by ring], ?_⟩
        intro f hf0 hfe
        have := hprev (f + 1) (by omega) (by omega)
        rwa [show c + (f + 1) = c + 1 + f by ring] at this

/-- The verify loop returns `{valid: false}` exactly when no in-range
candidate offset matches. -/
theorem verifyFrom_invalid_iff (o : HOTPVerifyOptions) (c : Int) (n : Nat)
    (hgen : ∀ e : Int, 0 ≤ e → e < n → (hotpGenerate (genOptions o (c + e))).isSome) :
    verifyFrom o c n = some { valid := false, delta := none } ↔
      ∀ e : Int, 0 ≤ e → e < n → hotpGenerate (genOptions o (c + e)) ≠ some o.code := by
  induction n generalizing c with
  | zero =>
    rw [verifyFrom]
    constructor
    · intro _ e he0 helt
      exact absurd helt (by push_cast; omega)
    · intro _
      rfl
  | succ n ih =>
    have h0 : (hotpGenerate (genOptions o (c + 0))).isSome :=
      hgen 0 le_rfl (by push_cast; omega)
    rw [add_zero] at h0
    obtain ⟨s, hs⟩ := Option.isSome_iff_exists.mp h0
    have step : verifyFrom o c (n + 1) =
        if s = o.code then some { valid := true, delta := some (c - o.counter) }
        else verifyFrom o (c + 1) n := by
      simp only [verifyFrom, hs]
    by_cases hm : s = o.code
    · subst hm
      rw [step, if_pos rfl]
      constructor
      · intro h
        exact absurd (Option.some.inj h) (by simp)
      · intro hall
        have := hall 0 le_rfl (by push_cast; omega)
        rw [add_zero] at this
        exact absurd hs this
    · have hgen' : ∀ e : Int, 0 ≤ e → e < n →
          (hotpGenerate (genOptions o (c + 1 + e))).isSome := by
        intro e he0 hen
        have := hgen (e + 1) (by omega) (by push_cast; omega)
        rwa [show c + (e + 1) = c + 1 + e by ring] at this
      rw [step, if_neg hm, ih (c + 1) hgen']
      constructor
      · intro hall e he0 hen1
        by_cases he : e = 0
        · subst he
          rw [add_zero]
          intro hco
          exact hm (Option.some.inj (hs.symm.trans hco))
        · have := hall (e - 1) (by omega) (by push_cast at hen1 ⊢; omega)
          rwa [show c + 1 + (e - 1) = c + e by ring] at this
      · intro hall e he0 hen
        have := hall (e + 1) (by omega) (by push_cast at hen ⊢; omega)
        rwa [show c + (e + 1) = c + 1 + e by ring] at this

/-! ## Codec round trips -/

theorem hexVal_hexDigitChar : ∀ i, i < 16 → hexVal (hexDigitChar i) = some i := by
  decide

theorem hexDecodePairs_hexEncodeBytes : ∀ l : List Nat, (∀ b ∈ l, b < 256) →
    hexDecodePairs (hexEncodeBytes l) = some l
  | [], _ => rfl
  | b :: rest, h => by
    have hb : b < 256 := h b (List.mem_cons_self b rest)
    have ih := hexDecodePairs_hexEncodeBytes rest fun x hx => h x (List.mem_cons_of_mem b hx)
    have h1 := hexVal_hexDigitChar (b / 16) (by omega)
    have h2 := hexVal_hexDigitChar (b % 16) (by omega)
    simp only [hexEncodeBytes, List.foldr_cons] at *
    rw [hexDecodePairs]
    simp only [h1, h2, ih, Option.bind_eq_bind, Option.some_bind, Option.some.injEq,
      List.cons.injEq, and_true]
    omega

theorem b64Index_b64Char : ∀ i, i < 64 → b64Index (b64Char i) = some i := by
  decide

theorem b64Char_ne_pad : ∀ i, i < 64 → b64Char i ≠ '=' := by
  decide

theorem b64_roundtrip : ∀ l : List Nat, (∀ b ∈ l, b < 256) →
    b64DecodeGroups (b64EncodeGroups l) = some l
  | [], _ => rfl
  | [b1], h => by
    have hb1 : b1 < 256 := h b1 (by simp)
    have h1 := b64Index_b64Char (b1 / 4) (by omega)
    have h2 := b64Index_b64Char ((b1 % 4) * 16) (by omega)
    rw [show b64EncodeGroups [b1] = [b64Char (b1 / 4), b64Char ((b1 % 4) * 16), '=', '=']
      from rfl]
    rw [b64DecodeGroups]
    simp only [h1, h2, Option.bind_eq_bind, Option.some_bind,
      if_pos (by simp : ('=' : Char) = '=' ∧ ('=' : Char) = '=' ∧ ([] : List Char) = [])]
    simp only [if_true, Option.some.injEq, List.cons.injEq, and_true]
    omega
  | [b1, b2], h => by
    have hb1 : b1 < 256 := h b1 (by simp)
    have hb2 : b2 < 256 := h b2 (by simp)
    have h1 := b64Index_b64Char (b1 / 4) (by omega)
    have h2 := b64Index_b64Char ((b1 % 4) * 16 + b2 / 16) (by omega)
    have h3 := b64Index_b64Char ((b2 % 16) * 4) (by omega)
    have hne3 := b64Char_ne_pad ((b2 % 16) * 4) (by omega)
    rw [show b64EncodeGroups [b1, b2] =
      [b64Char (b1 / 4), b64Char ((b1 % 4) * 16 + b2 / 16), b64Char ((b2 % 16) * 4), '=']
      from rfl]
    rw [b64DecodeGroups]
    simp only [h1, h2, h3, hne3, Option.bind_eq_bind, Option.some_bind, false_and, if_false,
      if_true, Option.some.injEq, List.cons.injEq, and_true]
    omega
  | b1 :: b2 :: b3 :: rest, h => by
    have hb1 : b1 < 256 := h b1 (by simp)
    have hb2 : b2 < 256 := h b2 (by simp)
    have hb3 : b3 < 256 := h b3 (by simp)
    have ih := b64_roundtrip rest fun x hx => h x (by simp [hx])
    have h1 := b64Index_b64Char (b1 / 4) (by omega)
    have h2 := b64Index_b64Char ((b1 % 4) * 16 + b2 / 16) (by omega)
    have h3 := b64Index_b64Char ((b2 % 16) * 4 + b3 / 64) (by omega)
    have h4 := b64Index_b64Char (b3 % 64) (by omega)
    have hne3 := b64Char_ne_pad ((b2 % 16) * 4 + b3 / 64) (by omega)
    have hne4 := b64Char_ne_pad (b3 % 64) (by omega)
    rw [show b64EncodeGroups (b1 :: b2 :: b3 :: rest) =
      b64Char (b1 / 4) :: b64Char ((b1 % 4) * 16 + b2 / 16) ::
      b64Char ((b2 % 16) * 4 + b3 / 64) :: b64Char (b3 % 64) :: b64EncodeGroups rest
      from rfl]
    rw [b64DecodeGroups]
    simp only [h1, h2, h3, h4, hne3, hne4, ih, Option.bind_eq_bind, Option.some_bind,
      false_and, and_false, if_false, Option.some.injEq, List.cons.injEq, and_true]
    omega

theorem b32Index_b32Char : ∀ i, i < 32 → b32Index (b32Char i) = some i := by
  decide

theorem b32Char_ne_pad : ∀ i, i < 32 → b32Char i ≠ '=' := by
  decide

theorem b32_roundtrip : ∀ l : List Nat, (∀ b ∈ l, b < 256) →
    b32DecodeGroups (b32EncodeGroups l) = some l
  | [], _ => rfl
  | [b1], h => by
    have hb1 : b1 < 256 := h b1 (by simp)
    have h1 := b32Index_b32Char (b1 / 8) (by omega)
    have h2 := b32Index_b32Char ((b1 % 8) * 4) (by omega)
    rw [show b32EncodeGroups [b1] =
      [b32Char (b1 / 8), b32Char ((b1 % 8) * 4), '=', '=', '=', '=', '=', '='] from rfl]
    rw [b32DecodeGroups]
    simp only [h1, h2, Option.bind_eq_bind, Option.some_bind, and_self, if_true,
      Option.some.injEq, List.cons.injEq, and_true]
    omega
  | [b1, b2], h => by
    have hb1 : b1 < 256 := h b1 (by simp)
    have hb2 : b2 < 256 := h b2 (by simp)
    have h1 := b32Index_b32Char (b1 / 8) (by omega)
    have h2 := b32Index_b32Char ((b1 % 8) * 4 + b2 / 64) (by omega)
    have h3 := b32Index_b32Char (b2 / 2 % 32) (by omega)
    have h4 := b32Index_b32Char ((b2 % 2) * 16) (by omega)
    have hne3 := b32Char_ne_pad (b2 / 2 % 32) (by omega)
    rw [show b32EncodeGroups [b1, b2] =
      [b32Char (b1 / 8), b32Char ((b1 % 8) * 4 + b2 / 64), b32Char (b2 / 2 % 32),
       b32Char ((b2 % 2) * 16), '=', '=', '=', '='] from rfl]
    rw [b32DecodeGroups]
    simp only [h1, h2, h3, h4, hne3, Option.bind_eq_bind, Option.some_bind, false_and,
      if_false, and_self, if_true, Option.some.injEq, List.cons.injEq, and_true]
    omega
  | [b1, b2, b3], h => by
    have hb1 : b1 < 256 := h b1 (by simp)
    have hb2 : b2 < 256 := h b2 (by simp)
    have hb3 : b3 < 256 := h b3 (by simp)
    have h1 := b32Index_b32Char (b1 / 8) (by omega)
    have h2 := b32Index_b32Char ((b1 % 8) * 4 + b2 / 64) (by omega)
    have h3 := b32Index_b32Char (b2 / 2 % 32) (by omega)
    have h4 := b32Index_b32Char ((b2 % 2) * 16 + b3 / 16) (by omega)
    have h5 := b32Index_b32Char ((b3 % 16) * 2) (by omega)
    have hne3 := b32Char_ne_pad (b2 / 2 % 32) (by omega)
    have hne5 := b32Char_ne_pad ((b3 % 16) * 2) (by omega)
    rw [show b32EncodeGroups [b1, b2, b3] =
      [b32Char (b1 / 8), b32Char ((b1 % 8) * 4 + b2 / 64), b32Char (b2 / 2 % 32),
       b32Char ((b2 % 2) * 16 + b3 / 16), b32Char ((b3 % 16) * 2), '=', '=', '='] from rfl]
    rw [b32DecodeGroups]
    simp only [h1, h2, h3, h4, h5, hne3, hne5, Option.bind_eq_bind, Option.some_bind,
      false_and, if_false, and_self, if_true, Option.some.injEq, List.cons.injEq, and_true]
    omega
  | [b1, b2, b3, b4], h => by
    have hb1 : b1 < 256 := h b1 (by simp)
    have hb2 : b2 < 256 := h b2 (by simp)
    have hb3 : b3 < 256 := h b3 (by simp)
    have hb4 : b4 < 256 := h b4 (by simp)
    have h1 := b32Index_b32Char (b1 / 8) (by omega)
    have h2 := b32Index_b32Char ((b1 % 8) * 4 + b2 / 64) (by omega)
    have h3 := b32Index_b32Char (b2 / 2 % 32) (by omega)
    have h4 := b32Index_b32Char ((b2 % 2) * 16 + b3 / 16) (by omega)
    have h5 := b32Index_b32Char ((b3 % 16) * 2 + b4 / 128) (by omega)
    have h6 := b32Index_b32Char (b4 / 4 % 32) (by omega)
    have h7 := b32Index_b32Char ((b4 % 4) * 8) (by omega)
    have hne3 := b32Char_ne_pad (b2 / 2 % 32) (by omega)
    have hne5 := b32Char_ne_pad ((b3 % 16) * 2 + b4 / 128) (by omega)
    have hne6 := b32Char_ne_pad (b4 / 4 % 32) (by omega)
    rw [show b32EncodeGroups [b1, b2, b3, b4] =
      [b32Char (b1 / 8), b32Char ((b1 % 8) * 4 + b2 / 64), b32Char (b2 / 2 % 32),
       b32Char ((b2 % 2) * 16 + b3 / 16), b32Char ((b3 % 16) * 2 + b4 / 128),
       b32Char (b4 / 4 % 32), b32Char ((b4 % 4) * 8), '='] from rfl]
    rw [b32DecodeGroups]
    simp only [h1, h2, h3, h4, h5, h6, h7, hne3, hne5, hne6, Option.bind_eq_bind,
      Option.some_bind, false_and, if_false, and_self, if_true, Option.some.injEq,
      List.cons.injEq, and_true]
    omega
  | b1 :: b2 :: b3 :: b4 :: b5 :: rest, h => by
    have hb1 : b1 < 256 := h b1 (by simp)
    have hb2 : b2 < 256 := h b2 (by simp)
    have hb3 : b3 < 256 := h b3 (by simp)
    have hb4 : b4 < 256 := h b4 (by simp)
    have hb5 : b5 < 256 := h b5 (by simp)
    have ih := b32_roundtrip rest fun x hx => h x (by simp [hx])
    have h1 := b32Index_b32Char (b1 / 8) (by omega)
    have h2 := b32Index_b32Char ((b1 % 8) * 4 + b2 / 64) (by omega)
    have h3 := b32Index_b32Char (b2 / 2 % 32) (by omega)
    have h4 := b32Index_b32Char ((b2 % 2) * 16 + b3 / 16) (by omega)
    have h5 := b32Index_b32Char ((b3 % 16) * 2 + b4 / 128) (by omega)
    have h6 := b32Index_b32Char (b4 / 4 % 32) (by omega)
    have h7 := b32Index_b32Char ((b4 % 4) * 8 + b5 / 32) (by omega)
    have h8 := b32Index_b32Char (b5 % 32) (by omega)
    have hne3 := b32Char_ne_pad (b2 / 2 % 32) (by omega)
    have hne5 := b32Char_ne_pad ((b3 % 16) * 2 + b4 / 128) (by omega)
    have hne6 := b32Char_ne_pad (b4 / 4 % 32) (by omega)
    have hne8 := b32Char_ne_pad (b5 % 32) (by omega)
    rw [show b32EncodeGroups (b1 :: b2 :: b3 :: b4 :: b5 :: rest) =
      b32Char (b1 / 8) :: b32Char ((b1 % 8) * 4 + b2 / 64) :: b32Char (b2 / 2 % 32) ::
      b32Char ((b2 % 2) * 16 + b3 / 16) :: b32Char ((b3 % 16) * 2 + b4 / 128) ::
      b32Char (b4 / 4 % 32) :: b32Char ((b4 % 4) * 8 + b5 / 32) :: b32Char (b5 % 32) ::
      b32EncodeGroups rest from rfl]
    rw [b32DecodeGroups]
    simp only [h1, h2, h3, h4, h5, h6, h7, h8, hne3, hne5, hne6, hne8, ih,
      Option.bind_eq_bind, Option.some_bind, false_and, and_false, if_false,
      Option.some.injEq, List.cons.injEq, and_true]
    omega

/-- For byte lists with `length % 5 = 2` (such as the 12-byte secrets of
`generateSecret`), stripping the `=` padding removes exactly the four
trailing pad characters, so re-appending them restores the padded Base32
form. -/
theorem b32_strip_pads : ∀ l : List Nat, (∀ b ∈ l, b < 256) → l.length % 5 = 2 →
    (b32EncodeGroups l).filter (fun c => c ≠ '=') ++ ['=', '=', '=', '='] =
      b32EncodeGroups l
  | [], _, hlen => by simp at hlen
  | [b1], _, hlen => by simp at hlen
  | [b1, b2], h, _ => by
    have hb1 : b1 < 256 := h b1 (by simp)
    have hb2 : b2 < 256 := h b2 (by simp)
    have hne1 := b32Char_ne_pad (b1 / 8) (by omega)
    have hne2 := b32Char_ne_pad ((b1 % 8) * 4 + b2 / 64) (by omega)
    have hne3 := b32Char_ne_pad (b2 / 2 % 32) (by omega)
    have hne4 := b32Char_ne_pad ((b2 % 2) * 16) (by omega)
    rw [show b32EncodeGroups [b1, b2] =
      [b32Char (b1 / 8), b32Char ((b1 % 8) * 4 + b2 / 64), b32Char (b2 / 2 % 32),
       b32Char ((b2 % 2) * 16), '=', '=', '=', '='] from rfl]
    simp [List.filter, hne1, hne2, hne3, hne4]
  | [b1, b2, b3], _, hlen => by simp at hlen
  | [b1, b2, b3, b4], _, hlen => by simp at hlen
  | b1 :: b2 :: b3 :: b4 :: b5 :: rest, h, hlen => by
    have hb1 : b1 < 256 := h b1 (by simp)
    have hb2 : b2 < 256 := h b2 (by simp)
    have hb3 : b3 < 256 := h b3 (by simp)
    have hb4 : b4 < 256 := h b4 (by simp)
    have hb5 : b5 < 256 := h b5 (by simp)
    have ih := b32_strip_pads rest (fun x hx => h x (by simp [hx]))
      (by simp at hlen; omega)
    have hne1 := b32Char_ne_pad (b1 / 8) (by omega)
    have hne2 := b32Char_ne_pad ((b1 % 8) * 4 + b2 / 64) (by omega)
    have hne3 := b32Char_ne_pad (b2 / 2 % 32) (by omega)
    have hne4 := b32Char_ne_pad ((b2 % 2) * 16 + b3 / 16) (by omega)
    have hne5 := b32Char_ne_pad ((b3 % 16) * 2 + b4 / 128) (by omega)
    have hne6 := b32Char_ne_pad (b4 / 4 % 32) (by omega)
    have hne7 := b32Char_ne_pad ((b4 % 4) * 8 + b5 / 32) (by omega)
    have hne8 := b32Char_ne_pad (b5 % 32) (by omega)
    rw [show b32EncodeGroups (b1 :: b2 :: b3 :: b4 :: b5 :: rest) =
      b32Char (b1 / 8) :: b32Char ((b1 % 8) * 4 + b2 / 64) :: b32Char (b2 / 2 % 32) ::
      b32Char ((b2 % 2) * 16 + b3 / 16) :: b32Char ((b3 % 16) * 2 + b4 / 128) ::
      b32Char (b4 / 4 % 32) :: b32Char ((b4 % 4) * 8 + b5 / 32) :: b32Char (b5 % 32) ::
      b32EncodeGroups rest from rfl]
    rw [List.filter_cons_of_pos (by simp [hne1]), List.filter_cons_of_pos (by simp [hne2]),
      List.filter_cons_of_pos (by simp [hne3]), List.filter_cons_of_pos (by simp [hne4]),
      List.filter_cons_of_pos (by simp [hne5]), List.filter_cons_of_pos (by simp [hne6]),
      List.filter_cons_of_pos (by simp [hne7]), List.filter_cons_of_pos (by simp [hne8])]
    simp only [List.cons_append]
    simpa using ih

/-! ## Decimal strings: the substring formatter versus the spec formatter -/

theorem digits_len_le_of_lt (v d : Nat) (h : v < 10 ^ d) :
    (Nat.digits 10 v).length ≤ d := by
  by_cases hv : v = 0
  · subst hv
    simp
  · by_contra hgt
    push_neg at hgt
    have h1 := Nat.base_pow_length_digits_le 10 v (by norm_num) hv
    have h2 : (10 : Nat) ^ (d + 1) ≤ 10 ^ (Nat.digits 10 v).length :=
      Nat.pow_le_pow_right (by norm_num) (by omega)
    have h3 : (10 : Nat) ^ (d + 1) = 10 * 10 ^ d := by ring
    omega

theorem lt_digits_len_of_le (v d : Nat) (h : 10 ^ d ≤ v) :
    d < (Nat.digits 10 v).length := by
  have h1 := Nat.lt_base_pow_length_digits (b := 10) (m := v) (by norm_num)
  by_contra hle
  push_neg at hle
  have h2 : (10 : Nat) ^ (Nat.digits 10 v).length ≤ 10 ^ d :=
    Nat.pow_le_pow_right (by norm_num) hle
  omega

theorem decChars_eq (v : Nat) (hv : v ≠ 0) :
    decChars v = ((Nat.digits 10 v).map fun d => Char.ofNat (48 + d)).reverse := by
  rw [decChars, if_neg hv, decDigits_eq]

theorem decChars_length (v : Nat) (hv : v ≠ 0) :
    (decChars v).length = (Nat.digits 10 v).length := by
  rw [decChars_eq v hv]
  simp

theorem decChars_length_le (v d : Nat) (hd : 1 ≤ d) (h : v < 10 ^ d) :
    (decChars v).length ≤ d := by
  by_cases hv : v = 0
  · subst hv
    simpa [decChars] using hd
  · rw [decChars_length v hv]
    exact digits_len_le_of_lt v d h

theorem specFormat_length (d v : Nat) (hd : 1 ≤ d) : (specFormat d v).length = d := by
  have hm : (decChars (v % 10 ^ d)).length ≤ d :=
    decChars_length_le _ d hd (Nat.mod_lt _ (by positivity))
  simp only [specFormat, List.length_append, List.length_replicate]
  omega

/-- Taking the last `d` characters of the decimal representation of `v`
agrees with the spec formatter (`v mod 10^d`, zero-padded to `d`) exactly
when `v` has at least `d` decimal digits. -/
theorem substrNeg_decChars (d v : Nat) (hd : 1 ≤ d) (hv : 10 ^ (d - 1) ≤ v) :
    substrNeg (decChars v) d = specFormat d v := by
  have hp : (0 : Nat) < 10 ^ (d - 1) := pow_pos (by norm_num) _
  have hv0 : v ≠ 0 := by omega
  have hdlen : d ≤ (Nat.digits 10 v).length := by
    have := lt_digits_len_of_le v (d - 1) hv
    omega
  by_cases hvlt : v < 10 ^ d
  · have hlen : (Nat.digits 10 v).length = d :=
      le_antisymm (digits_len_le_of_lt v d hvlt) hdlen
    have hclen : (decChars v).length = d := by
      rw [decChars_length v hv0, hlen]
    rw [substrNeg, if_neg (by omega), hclen, Nat.sub_self, List.drop_zero]
    simp [specFormat, Nat.mod_eq_of_lt hvlt, hclen]
  · push_neg at hvlt
    have hq0 : 0 < v / 10 ^ d := Nat.div_pos hvlt (by positivity)
    have hrlt : v % 10 ^ d < 10 ^ d := Nat.mod_lt v (by positivity)
    have hrlen : (Nat.digits 10 (v % 10 ^ d)).length ≤ d :=
      digits_len_le_of_lt _ d hrlt
    have hsplit : Nat.digits 10 v =
        Nat.digits 10 (v % 10 ^ d) ++
        List.replicate (d - (Nat.digits 10 (v % 10 ^ d)).length) 0 ++
        Nat.digits 10 (v / 10 ^ d) := by
      rw [Nat.digits_append_zeroes_append_digits (by norm_num) hq0]
      congr 1
      rw [show (Nat.digits 10 (v % 10 ^ d)).length +
          (d - (Nat.digits 10 (v % 10 ^ d)).length) = d by omega]
      rw [Nat.mod_add_div v (10 ^ d)]
    have hchars : decChars v =
        ((Nat.digits 10 (v / 10 ^ d)).map fun x => Char.ofNat (48 + x)).reverse ++
        (List.replicate (d - (Nat.digits 10 (v % 10 ^ d)).length) '0' ++
         ((Nat.digits 10 (v % 10 ^ d)).map fun x => Char.ofNat (48 + x)).reverse) := by
      rw [decChars_eq v hv0, hsplit]
      simp [List.reverse_append]
    have hlen_total : (decChars v).length =
        (Nat.digits 10 (v / 10 ^ d)).length + d := by
      rw [hchars]
      simp
      omega
    rw [substrNeg, if_neg (by omega), hlen_total,
      show (Nat.digits 10 (v / 10 ^ d)).length + d - d =
        (Nat.digits 10 (v / 10 ^ d)).length by omega,
      hchars, List.drop_left' (by simp)]
    by_cases hr0 : v % 10 ^ d = 0
    · rw [hr0]
      simp only [Nat.digits_zero, List.length_nil, Nat.sub_zero, List.map_nil,
        List.reverse_nil, List.append_nil, specFormat]
      rw [hr0, show decChars 0 = ['0'] from rfl]
      simp only [List.length_cons, List.length_nil]
      rw [show d = (d - 1) + 1 by omega, List.replicate_succ']
      simp [show (d - 1) + 1 - 1 = d - 1 by omega]
    · rw [specFormat]
      rw [show decChars (v % 10 ^ d) =
        ((Nat.digits 10 (v % 10 ^ d)).map fun x => Char.ofNat (48 + x)).reverse
        from decChars_eq _ hr0]
      simp

/-- When the code generated at the submitted counter itself matches, the
verify loop (with a non-negative window) succeeds immediately with
`delta = 0`. -/
theorem hotpVerify_head (o : HOTPVerifyOptions) (hw : 0 ≤ o.window)
    (h : hotpGenerate (genOptions o o.counter) = some o.code) :
    hotpVerify o = some { valid := true, delta := some 0 } := by
  rw [hotpVerify, show (o.window + 1).toNat = o.window.toNat + 1 by omega]
  have := verifyFrom_head o o.counter o.window.toNat h
  rwa [sub_self] at this

/-- `totpGenerate` succeeds whenever the secret decodes and the derived
counter is representable. -/
theorem totpGenerate_eq_some (go : TOTPGenerateOptions) (key : List Nat) (c0 : Nat)
    (hk : decodeSecret go.encoding go.secret = some key)
    (hc : generateCounterFromTime go.time go.step = some c0)
    (hb : (c0 : Int) < 2 ^ 64) :
    ∃ v, v < 2 ^ 31 ∧ totpGenerate go = some ⟨substrNeg (decChars v) go.digits⟩ := by
  obtain ⟨v, hvlt, -, hgen⟩ := hotpGenerate_some
    { secret := go.secret, counter := (c0 : Int), digits := go.digits,
      encoding := go.encoding, algorithm := go.algorithm } key hk
    (Int.natCast_nonneg _) hb
  refine ⟨v, hvlt, ?_⟩
  rw [totpGenerate]
  simp only [hc, Option.bind_eq_bind, Option.some_bind]
  exact hgen

/-- The TOTP round trip at window 0, for verify options agreeing fieldwise
with the generate options. -/
theorem totp_roundtrip_generic (go : TOTPGenerateOptions) (vo : TOTPVerifyOptions)
    (c0 : Nat)
    (hsecret : vo.secret = go.secret) (htime : vo.time = go.time)
    (hstep : vo.step = go.step) (hdigits : vo.digits = go.digits)
    (henc : vo.encoding = go.encoding) (halg : vo.algorithm = go.algorithm)
    (hwin : vo.window = 0)
    (hc : generateCounterFromTime go.time go.step = some c0)
    (hgen : totpGenerate go = some vo.code) :
    totpVerify vo = some { valid := true, delta := some 0 } := by
  rw [totpGenerate] at hgen
  simp only [hc, Option.bind_eq_bind, Option.some_bind] at hgen
  have hinner : totpInner vo c0 =
      { secret := go.secret, counter := (c0 : Int), code := vo.code, window := 0,
        digits := go.digits, encoding := go.encoding, algorithm := go.algorithm } := by
    rw [totpInner, hsecret, hdigits, henc, halg, hwin]
    simp
  have hv : hotpVerify (totpInner vo c0) = some { valid := true, delta := some 0 } := by
    rw [hinner]
    exact hotpVerify_head
      { secret := go.secret, counter := (c0 : Int), code := vo.code, window := 0,
        digits := go.digits, encoding := go.encoding, algorithm := go.algorithm }
      (by norm_num) hgen
  rw [totpVerify]
  have hc' : generateCounterFromTime vo.time vo.step = some c0 := by
    rw [htime, hstep]
    exact hc
  simp only [hc', Option.bind_eq_bind, Option.some_bind, hv, hwin]
  simp

/-! ## The claims -/

/-- C10: for every input with a negative window, `hotpVerify` returns
`{valid: false}` with no delta, and (as witnessed by the fact that this
holds even for counters and secrets at which code generation would fail)
performs no code generation or comparison: the search range is empty. -/
theorem C10_negative_window (o : HOTPVerifyOptions) (hw : o.window < 0) :
    hotpVerify o = some { valid := false, delta := none } := by
  rw [hotpVerify, show (o.window + 1).toNat = 0 by omega, verifyFrom]

theorem C10_negative_window_witness :
    ((-1 : Int) < 0) ∧
      hotpVerify
        { secret := "anything", counter := -5, code := "755224", window := -1 } =
        some { valid := false, delta := none } :=
  ⟨by decide, C10_negative_window _ (by decide)⟩

/-- C7: for every input to `hotpVerify` and `totpVerify` (that returns a
result rather than propagating an internal error), the `delta` field is
present if and only if `valid` is true; and when the submitted code
matches no counter in `[counter, counter + window]`, the result is
`{valid: false}` with no delta. -/
theorem C7_delta_iff_valid :
    (∀ (o : HOTPVerifyOptions) (r : OTPVerificationResult),
      hotpVerify o = some r → (r.delta ≠ none ↔ r.valid = true)) ∧
    (∀ (o : TOTPVerifyOptions) (r : OTPVerificationResult),
      totpVerify o = some r → (r.delta ≠ none ↔ r.valid = true)) ∧
    (∀ (o : HOTPVerifyOptions) (key : List Nat),
      decodeSecret o.encoding o.secret = some key →
      0 ≤ o.counter → o.counter + o.window < 2 ^ 64 →
      (∀ e : Int, 0 ≤ e → e ≤ o.window →
        hotpGenerate (genOptions o (o.counter + e)) ≠ some o.code) →
      hotpVerify o = some { valid := false, delta := none }) := by
  refine ⟨hotpVerify_delta_iff, totpVerify_delta_iff, ?_⟩
  intro o key hk h0 h1 hnone
  rw [hotpVerify]
  rw [verifyFrom_invalid_iff o o.counter _ ?hgen]
  case hgen =>
    intro e he0 hee
    exact genOptions_isSome o key hk _ (by omega) (by omega)
  intro e he0 hee
  exact hnone e he0 (by omega)

theorem C7_delta_iff_valid_witness :
    (((⟨true, some 0⟩ : OTPVerificationResult).delta ≠ none ↔
      (⟨true, some 0⟩ : OTPVerificationResult).valid = true) ∧
     ((⟨true, some 0⟩ : OTPVerificationResult).delta ≠ none ↔
      (⟨true, some 0⟩ : OTPVerificationResult).valid = true)) ∧
    hotpVerify { secret := rfcSecret, counter := 0, code := "000000" } =
      some { valid := false, delta := none } := by
  refine ⟨⟨C7_delta_iff_valid.1 { secret := rfcSecret, counter := 0, code := "755224" }
      ⟨true, some 0⟩ (by decide),
    C7_delta_iff_valid.2.1 { secret := rfcSecret, code := "287082", time := 59 }
      ⟨true, some 0⟩ (by decide)⟩,
    C7_delta_iff_valid.2.2 { secret := rfcSecret, counter := 0, code := "000000" }
      (asciiBytes rfcSecret) rfl (by decide) (by decide) ?_⟩
  intro e he0 hee
  have he : e = 0 := by
    have hzero :
        ({ secret := rfcSecret, counter := 0, code := "000000" } :
          HOTPVerifyOptions).window = 0 := rfl
    omega
  subst he
  decide

/-- C3: for every decodable ("valid") secret and every non-negative counter
representable in the 8-byte counter codec, `hotpGenerate` produces a code,
and verifying that code at the same counter with window 0 yields
`{valid: true, delta: 0}`. -/
theorem C3_hotp_roundtrip (secret : String) (counter : Int) (digits : Nat)
    (enc : Encoding) (alg : Algorithm) (key : List Nat)
    (hk : decodeSecret enc secret = some key)
    (h0 : 0 ≤ counter) (h1 : counter < 2 ^ 64) :
    ∃ code, hotpGenerate
      { secret := secret, counter := counter, digits := digits,
        encoding := enc, algorithm := alg } = some code ∧
    hotpVerify
      { secret := secret, counter := counter, code := code, window := 0,
        digits := digits, encoding := enc, algorithm := alg } =
      some { valid := true, delta := some 0 } := by
  obtain ⟨v, -, -, hgen⟩ := hotpGenerate_some
    { secret := secret, counter := counter, digits := digits,
      encoding := enc, algorithm := alg } key hk h0 h1
  exact ⟨_, hgen, hotpVerify_head _ (by norm_num) hgen⟩

theorem C3_hotp_roundtrip_witness :
    ∃ code, hotpGenerate { secret := rfcSecret, counter := 0 } = some code ∧
    hotpVerify
      { secret := rfcSecret, counter := 0, code := code, window := 0 } =
      some { valid := true, delta := some 0 } :=
  C3_hotp_roundtrip rfcSecret 0 6 .ascii .sha1 (asciiBytes rfcSecret)
    rfl (by decide) (by decide)

/-- C2: `totpVerify` derives `counter0 = time / step`, calls `hotpVerify`
with `counter = counter0 - window` and `window = 2 * window`, and returns
that result with `delta` decreased by `window` exactly when it is valid;
an invalid result is returned as `{valid: false}` with no delta. -/
theorem C2_totp_delegation (o : TOTPVerifyOptions) (c0 : Nat) (r : OTPVerificationResult)
    (hc : generateCounterFromTime o.time o.step = some c0)
    (hr : hotpVerify
      { secret := o.secret, counter := (c0 : Int) - o.window, code := o.code,
        window := o.window * 2, digits := o.digits, encoding := o.encoding,
        algorithm := o.algorithm } = some r) :
    totpVerify o = some (if r.valid
      then { valid := true, delta := r.delta.map fun x => x - o.window }
      else { valid := false, delta := none }) := by
  have hdelta := totpVerify_delta_iff o
  rw [totpVerify]
  simp only [totpInner, hc, Option.bind_eq_bind, Option.some_bind, hr]
  have hiff := hotpVerify_delta_iff _ r hr
  by_cases hvalid : r.valid = true
  · rw [if_pos hvalid, if_pos hvalid]
    match hd : r.delta with
    | some x => simp [hvalid]
    | none => exact absurd hd (by simpa [hvalid] using hiff)
  · rw [if_neg hvalid, if_neg hvalid]
    have hdel : r.delta = none := by
      by_contra hne
      exact hvalid (hiff.mp hne)
    have hval : r.valid = false := by
      revert hvalid
      match r.valid with
      | true => intro h; exact absurd rfl h
      | false => intro _; rfl
    congr 1
    cases r
    simp_all

/-- C4: for every secret, time `T` (with the derived counter in the
codec's range) and step 30, `totpGenerate` produces a code, and
`totpVerify` on that code at the same time with window 0 returns
`{valid: true, delta: 0}`. -/
theorem C4_totp_roundtrip (secret : String) (T : Nat) (digits : Nat) (alg : Algorithm)
    (hbound : T / 30 < 2 ^ 64) :
    ∃ code, totpGenerate
      { secret := secret, time := T, step := 30, digits := digits,
        algorithm := alg } = some code ∧
    totpVerify
      { secret := secret, code := code, window := 0, time := T, step := 30,
        digits := digits, algorithm := alg } =
      some { valid := true, delta := some 0 } := by
  have hc : generateCounterFromTime T 30 = some (T / 30) := by
    simp [generateCounterFromTime]
  obtain ⟨v, -, hgen⟩ := totpGenerate_eq_some
    { secret := secret, time := T, step := 30, digits := digits, algorithm := alg }
    (asciiBytes secret) (T / 30) rfl hc
    (by show ((T / 30 : Nat) : Int) < 2 ^ 64; exact_mod_cast hbound)
  refine ⟨⟨substrNeg (decChars v) digits⟩, hgen, ?_⟩
  exact totp_roundtrip_generic
    { secret := secret, time := T, step := 30, digits := digits, algorithm := alg }
    { secret := secret, code := (⟨substrNeg (decChars v) digits⟩ : String),
      window := 0, time := T, step := 30, digits := digits, algorithm := alg }
    (T / 30) rfl rfl rfl rfl rfl rfl rfl hc hgen

theorem C4_totp_roundtrip_witness :
    ∃ code, totpGenerate { secret := rfcSecret, time := 59, step := 30 } = some code ∧
    totpVerify
      { secret := rfcSecret, code := code, window := 0, time := 59, step := 30 } =
      some { valid := true, delta := some 0 } :=
  C4_totp_roundtrip rfcSecret 59 6 .sha1 (by decide)

/-- C5 counterexample: codes are six decimal digits, so distinct counters
can collide.  With the RFC 4226 secret, counters 336 and 2205 both
generate "143951"; for counter 336, k = w = 1869 the claim demands
`{valid: true, delta: 1869}`, but the search matches counter 336 first and
returns `delta = 0`. -/
theorem C5_counterexample :
    (1869 : Int) ≤ 1869 ∧
    hotpGenerate { secret := rfcSecret, counter := 2205 } = some "143951" ∧
    hotpVerify
      { secret := rfcSecret, counter := 336, code := "143951", window := 1869 } =
      some { valid := true, delta := some 0 } ∧
    (0 : Int) ≠ 1869 := by
  refine ⟨le_refl _, by decide, ?_, by decide⟩
  exact hotpVerify_head _ (by decide) (by decide)

/-- C5 (amended): provided additionally that no counter in the window
strictly before `counter + k` generates the submitted code (no collision),
`hotpVerify` on the code generated at `counter + k` with window `w` is
`{valid: true, delta: k}` when `k ≤ w` and `{valid: false}` when `k > w`. -/
theorem C5_amended_window (o : HOTPVerifyOptions) (k : Int) (key : List Nat)
    (hk : decodeSecret o.encoding o.secret = some key)
    (h0 : 0 ≤ o.counter) (hkpos : 0 ≤ k) (hwpos : 0 ≤ o.window)
    (hrangew : o.counter + o.window < 2 ^ 64)
    (hgen : hotpGenerate (genOptions o (o.counter + k)) = some o.code)
    (hdistinct : ∀ j : Int, 0 ≤ j → j < k → j ≤ o.window →
      hotpGenerate (genOptions o (o.counter + j)) ≠ some o.code) :
    (k ≤ o.window → hotpVerify o = some { valid := true, delta := some k }) ∧
    (o.window < k → hotpVerify o = some { valid := false, delta := none }) := by
  have hgenall : ∀ e : Int, 0 ≤ e → e < ((o.window + 1).toNat : Int) →
      (hotpGenerate (genOptions o (o.counter + e))).isSome := by
    intro e he0 hee
    exact genOptions_isSome o key hk _ (by omega) (by omega)
  constructor
  · intro hkw
    rw [hotpVerify, verifyFrom_valid_iff o o.counter _ k hgenall]
    exact ⟨k, hkpos, by omega, by omega, hgen,
      fun f hf0 hfk => hdistinct f hf0 hfk (by omega)⟩
  · intro hwk
    rw [hotpVerify, verifyFrom_invalid_iff o o.counter _ hgenall]
    intro e he0 hee
    exact hdistinct e he0 (by omega) (by omega)

theorem C5_amended_window_witness :
    hotpVerify
      { secret := rfcSecret, counter := 0, code := "287082", window := 2 } =
      some { valid := true, delta := some 1 } := by
  refine (C5_amended_window
    { secret := rfcSecret, counter := 0, code := "287082", window := 2 }
    1 (asciiBytes rfcSecret) rfl (by decide) (by decide) (by decide) (by decide)
    (by decide) ?_).1 (by decide)
  intro j hj0 hjk hjw
  have hj : j = 0 := by omega
  subst hj
  decide

/-- C6: `hotpVerify` succeeds with `{valid: true, delta: d}` exactly when
`d` is the smallest offset in `[0, window]` whose generated code
string-equals the submitted code; in particular `d ≥ 0`, so the search is
forward-only and never considers counters below the submitted one. -/
theorem C6_forward_first_match (o : HOTPVerifyOptions) (key : List Nat) (d : Int)
    (hk : decodeSecret o.encoding o.secret = some key)
    (h0 : 0 ≤ o.counter) (hw : 0 ≤ o.window) (h1 : o.counter + o.window < 2 ^ 64) :
    hotpVerify o = some { valid := true, delta := some d } ↔
      (0 ≤ d ∧ d ≤ o.window ∧
        hotpGenerate (genOptions o (o.counter + d)) = some o.code ∧
        ∀ e : Int, 0 ≤ e → e < d →
          hotpGenerate (genOptions o (o.counter + e)) ≠ some o.code) := by
  have hgenall : ∀ e : Int, 0 ≤ e → e < ((o.window + 1).toNat : Int) →
      (hotpGenerate (genOptions o (o.counter + e))).isSome := by
    intro e he0 hee
    exact genOptions_isSome o key hk _ (by omega) (by omega)
  rw [hotpVerify, verifyFrom_valid_iff o o.counter _ d hgenall]
  constructor
  · rintro ⟨e, he0, hee, hd, hgene, hprev⟩
    have hde : e = d := by omega
    subst hde
    exact ⟨he0, by omega, hgene, hprev⟩
  · rintro ⟨hd0, hdw, hgend, hprev⟩
    exact ⟨d, hd0, by omega, by omega, hgend, hprev⟩

theorem C6_forward_first_match_witness :
    hotpVerify
      { secret := rfcSecret, counter := 1, code := "359152", window := 1 } =
      some { valid := true, delta := some 1 } := by
  refine (C6_forward_first_match
    { secret := rfcSecret, counter := 1, code := "359152", window := 1 }
    (asciiBytes rfcSecret) 1 rfl (by decide) (by decide) (by decide)).mpr
    ⟨by decide, by decide, by decide, ?_⟩
  intro e he0 he1
  have he : e = 0 := by omega
  subst he
  decide

/-- C1 counterexample: `hotpGenerate` takes the rightmost `digits`
characters of the truncated value's decimal form without zero-padding.
With the RFC 4226 secret, counter 2 truncates to 137359152 (nine digits),
so `digits = 10` yields a 9-character code, not the 10-character
zero-padded "0137359152" that the spec formatter produces. -/
theorem C1_counterexample :
    hotpGenerate { secret := rfcSecret, counter := 2, digits := 10 } =
      some "137359152" ∧
    "137359152".length = 9 ∧ ("137359152".length ≠ 10) ∧
    String.mk (specFormat 10 137359152) = "0137359152" := by
  refine ⟨by decide, by decide, by decide, by decide⟩

/-- C1 (amended): whenever the truncated value has at least `digits ≥ 1`
decimal digits, the returned string is `(value mod 10^digits)` rendered in
decimal and left-padded with zeros to exactly `digits` characters. -/
theorem C1_amended_padding (o : HOTPGenerateOptions) (v : Nat)
    (hcode : hotpCode o = some v) (hd : 1 ≤ o.digits)
    (hv : 10 ^ (o.digits - 1) ≤ v) :
    hotpGenerate o = some ⟨specFormat o.digits v⟩ ∧
      (specFormat o.digits v).length = o.digits := by
  refine ⟨?_, specFormat_length o.digits v hd⟩
  rw [hotpGenerate_eq_of_code o v hcode, substrNeg_decChars o.digits v hd hv]

theorem C1_amended_padding_witness :
    hotpCode { secret := rfcSecret, counter := 0 } = some 1284755224 ∧
    (hotpGenerate { secret := rfcSecret, counter := 0 } =
        some ⟨specFormat 6 1284755224⟩ ∧
      (specFormat 6 1284755224).length = 6) :=
  ⟨by decide, C1_amended_padding { secret := rfcSecret, counter := 0 } 1284755224
    (by decide) (by decide) (by decide)⟩

/-- C9 counterexample: for `digits = 0`, JS `substr(-0)` starts at index 0
and returns the whole decimal string, so the output length is the full
digit count of the truncated value, not `min 0 _ = 0`. -/
theorem C9_counterexample :
    hotpGenerate { secret := rfcSecret, counter := 0, digits := 0 } =
      some "1284755224" ∧
    "1284755224".length = 10 ∧
    ("1284755224".length ≠ min 0 (decChars 1284755224).length) := by
  refine ⟨by decide, by decide, by decide⟩

/-- C9 (amended): for every input with `digits ≥ 1` on which generation
succeeds, the output length is the minimum of `digits` and the number of
decimal digits of the truncated value: never longer than `digits`, but
shorter when the decimal representation is, with no zero-padding added. -/
theorem C9_amended_length (o : HOTPGenerateOptions) (v : Nat) (s : String)
    (hd : 1 ≤ o.digits) (hcode : hotpCode o = some v)
    (hgen : hotpGenerate o = some s) :
    s.length = min o.digits (decChars v).length := by
  rw [hotpGenerate_eq_of_code o v hcode] at hgen
  obtain rfl := Option.some.inj hgen
  show (substrNeg (decChars v) o.digits).length = _
  rw [substrNeg, if_neg (by omega)]
  simp only [List.length_drop]
  omega

theorem C9_amended_length_witness :
    "755224".length = min 6 (decChars 1284755224).length :=
  C9_amended_length { secret := rfcSecret, counter := 0 } 1284755224 "755224"
    (by decide) (by decide) (by decide)

/-- C8: for a 12-character random secret, the bundle's `ascii` field has
length 12, the `hex`, `base32` (after re-adding the four stripped `=`
pads) and `base64` fields all decode back to the secret's ASCII bytes,
and the `base32` field contains no `=`. -/
theorem C8_secret_bundle (s : String) (hlen : s.length = 12) :
    (generateSecret s).ascii.length = 12 ∧
    hexDecodePairs (generateSecret s).hex.data = some (asciiBytes s) ∧
    b32DecodeGroups ((generateSecret s).base32.data ++ ['=', '=', '=', '=']) =
      some (asciiBytes s) ∧
    b64DecodeGroups (generateSecret s).base64.data = some (asciiBytes s) ∧
    '=' ∉ (generateSecret s).base32.data := by
  have hbound : ∀ b ∈ asciiBytes s, b < 256 := by
    intro b hb
    simp only [asciiBytes, List.mem_map] at hb
    obtain ⟨c, -, rfl⟩ := hb
    omega
  have hblen : (asciiBytes s).length = 12 := by
    simpa [asciiBytes] using hlen
  refine ⟨hlen, ?_, ?_, ?_, ?_⟩
  · exact hexDecodePairs_hexEncodeBytes (asciiBytes s) hbound
  · show b32DecodeGroups
      ((b32EncodeGroups (asciiBytes s)).filter (fun c => c ≠ '=') ++
        ['=', '=', '=', '=']) = some (asciiBytes s)
    rw [b32_strip_pads (asciiBytes s) hbound (by rw [hblen])]
    exact b32_roundtrip (asciiBytes s) hbound
  · exact b64_roundtrip (asciiBytes s) hbound
  · intro hmem
    have hmem2 : '=' ∈ (b32EncodeGroups (asciiBytes s)).filter (fun c => c ≠ '=') :=
      hmem
    rw [List.mem_filter] at hmem2
    simp at hmem2

theorem C8_secret_bundle_witness :
    (generateSecret "abcdefghijkl").ascii.length = 12 ∧
    hexDecodePairs (generateSecret "abcdefghijkl").hex.data =
      some (asciiBytes "abcdefghijkl") ∧
    b32DecodeGroups
      ((generateSecret "abcdefghijkl").base32.data ++ ['=', '=', '=', '=']) =
      some (asciiBytes "abcdefghijkl") ∧
    b64DecodeGroups (generateSecret "abcdefghijkl").base64.data =
      some (asciiBytes "abcdefghijkl") ∧
    '=' ∉ (generateSecret "abcdefghijkl").base32.data :=
  C8_secret_bundle "abcdefghijkl" rfl

theorem C2_totp_delegation_witness :
    totpVerify
      { secret := rfcSecret, code := "287082", window := 1, time := 59, step := 30 } =
      some { valid := true, delta := some 0 } := by
  have h := C2_totp_delegation
    { secret := rfcSecret, code := "287082", window := 1, time := 59, step := 30 }
    1 ⟨true, some 1⟩ (by decide) (by decide)
  simpa using h

end OtpUtils
